import Mathlib

/-!
Verification of the beads issue-tracker core (crates/beads-core) against its
specification.  The Rust sources are shallowly embedded: serde_json values
become the inductive type Json (serde_json maps are BTreeMaps, so objects are
kept as key-sorted association lists), the SQLite cache becomes the record
Cache holding the rows of the four tables plus the _meta key/value store, and
the event log becomes a list of Event values (one per JSON line; blank lines
carry no state and are skipped by both readers).  File offsets are modelled
exactly: each log line contributes the UTF-8 byte length of the serialized
event plus one for the newline.
-/

namespace Beads

/-- serde_json::Value.  Numbers are restricted to integers: every number the
core reads or writes (priority, serial) is integral. -/
inductive Json where
  | null : Json
  | bool (b : Bool) : Json
  | num (n : Int) : Json
  | str (s : String) : Json
  | arr (items : List Json) : Json
  | obj (fields : List (String × Json)) : Json

/-- JSON string escaping as serde_json performs it for the characters the
development uses (quote, backslash, and the common control characters). -/
def jsonEscapeChar (c : Char) : String :=
  if c = '"' then "\\\""
  else if c = '\\' then "\\\\"
  else if c = '\n' then "\\n"
  else if c = '\r' then "\\r"
  else if c = '\t' then "\\t"
  else String.singleton c

def jsonEscape (s : String) : String :=
  String.join (s.toList.map jsonEscapeChar)

mutual

/-- Compact serialization, as serde_json::to_string / Value::to_string
produce it: no whitespace, object fields in stored (key-sorted) order. -/
def jsonToString : Json → String
  | Json.null => "null"
  | Json.bool b => cond b "true" "false"
  | Json.num n => toString n
  | Json.str s => "\"" ++ jsonEscape s ++ "\""
  | Json.arr items => "[" ++ jsonListToString items ++ "]"
  | Json.obj fields => "\x7b" ++ jsonFieldsToString fields ++ "\x7d"

def jsonListToString : List Json → String
  | [] => ""
  | [x] => jsonToString x
  | x :: y :: rest => jsonToString x ++ "," ++ jsonListToString (y :: rest)

def jsonFieldsToString : List (String × Json) → String
  | [] => ""
  | [(k, v)] => "\"" ++ jsonEscape k ++ "\":" ++ jsonToString v
  | (k, v) :: y :: rest =>
      "\"" ++ jsonEscape k ++ "\":" ++ jsonToString v ++ "," ++ jsonFieldsToString (y :: rest)

end

/-- Does the pattern occur at the head of the text? -/
def patAtHead : List Char → List Char → Bool
  | [], _ => true
  | _ :: _, [] => false
  | p :: ps, t :: ts => p = t && patAtHead ps ts

/-- Replace every non-overlapping occurrence of the pattern, scanning left
to right (the common semantics of SQLite REPLACE and str::replace for a
non-empty pattern).  The fuel is the text length: every step consumes at
least one text character. -/
def replaceFuel (pat rep : List Char) : Nat → List Char → List Char
  | _, [] => []
  | 0, ts => ts
  | Nat.succ fuel, t :: ts =>
      if patAtHead pat (t :: ts) then
        rep ++ replaceFuel pat rep fuel (List.drop (pat.length - 1) ts)
      else t :: replaceFuel pat rep fuel ts

/-- SQLite REPLACE(s, pat, rep): all occurrences replaced; with an empty
pattern the string is returned unchanged. -/
def rustReplace (s pat rep : String) : String :=
  if pat = "" then s
  else String.mk (replaceFuel pat.toList rep.toList s.toList.length s.toList)

/-- Lexicographic string order (byte order of UTF-8 equals code-point order
of the characters), the order both str::cmp and the ULID comparison induce. -/
def charListLe : List Char → List Char → Bool
  | [], _ => true
  | _ :: _, [] => false
  | a :: as, b :: bs => if a < b then true else if b < a then false else charListLe as bs

def strLe (a b : String) : Bool := charListLe a.toList b.toList

/-- Decimal digit accumulation for str::parse of an unsigned integer. -/
def decDigits : List Char → Nat → Option Nat
  | [], acc => some acc
  | c :: cs, acc =>
      if '0' ≤ c && c ≤ '9' then decDigits cs (acc * 10 + (c.toNat - 48)) else none

/-- value.parse::<u32>().ok(): an optional leading plus sign, then one or
more decimal digits, in u32 range (overflow is a parse error). -/
def rustParseU32 (s : String) : Option Nat :=
  match s.toList with
  | [] => none
  | '+' :: [] => none
  | '+' :: c :: cs =>
      (decDigits (c :: cs) 0).bind (fun n => if n < 4294967296 then some n else none)
  | l => (decDigits l 0).bind (fun n => if n < 4294967296 then some n else none)

/-- Insertion into a serde_json::Map (a BTreeMap): the association list is
kept sorted by key, and inserting an existing key replaces its value. -/
def objInsert : List (String × Json) → String → Json → List (String × Json)
  | [], k, v => [(k, v)]
  | (k0, v0) :: rest, k, v =>
      if k < k0 then (k, v) :: (k0, v0) :: rest
      else if k = k0 then (k, v) :: rest
      else (k0, v0) :: objInsert rest k v

/-- serde_json::Map::get. -/
def lookupField : List (String × Json) → String → Option Json
  | [], _ => none
  | (k0, v0) :: rest, k => if k0 = k then some v0 else lookupField rest k

/-- model.rs OpKind (serde snake_case tags). -/
inductive OpKind where
  | create | update | comment | link | unlink | archive
deriving DecidableEq, Repr

/-- model.rs Issue as the library code (lib.rs) constructs it.  The captured
model.rs struct omits created_at although lib.rs initialises that field; the
field exists in the compiled crate.  It is irrelevant to the cache: the
issues table has no created_at column and upsert_issue never writes it. -/
structure Issue where
  id : String
  title : String
  kind : String
  priority : Nat
  status : String
  created_at : String
  description : Option String
  design : Option String
  acceptance_criteria : Option String
  notes : Option String
  data : Option Json

/-- model.rs IssueUpdate.  The captured model.rs struct lists eight optional
fields; both lib.rs (add_document_to_issue) and db.rs (apply_issue_update)
dereference update.data, so the compiled crate additionally has
data: Option of serde_json::Value with the same serde attributes (optional,
skipped when absent), and that field is included here. -/
structure IssueUpdate where
  title : Option String := none
  kind : Option String := none
  priority : Option Nat := none
  status : Option String := none
  description : Option String := none
  design : Option String := none
  acceptance_criteria : Option String := none
  notes : Option String := none
  data : Option Json := none

/-- model.rs IssueUpdate::is_empty, verbatim: it tests the eight named
fields and does not inspect data. -/
def IssueUpdate.isEmpty (u : IssueUpdate) : Bool :=
  u.title.isNone && u.kind.isNone && u.priority.isNone && u.status.isNone
    && u.description.isNone && u.design.isNone
    && u.acceptance_criteria.isNone && u.notes.isNone

/-- model.rs Event. -/
structure Event where
  event_id : String
  ts : String
  op : OpKind
  id : String
  actor : String
  data : Json

/-- model.rs Label. -/
structure Label where
  id : String
  name : String
  color : Option String
  description : Option String
deriving DecidableEq, Repr

/-- One row of the issues table (db.rs schema).  The data column is TEXT:
it stores the serde_json serialization of the issue's data value. -/
structure IssueRow where
  id : String
  title : String
  kind : String
  priority : Nat
  status : String
  description : Option String
  design : Option String
  acceptance_criteria : Option String
  notes : Option String
  data : Option String
deriving DecidableEq, Repr

/-- The relational cache: the four tables of db.rs create_schema plus the
_meta key/value table.  dependencies rows are (issue_id, depends_on_id);
issue_labels rows are (issue_id, label_id). -/
structure Cache where
  issues : List IssueRow := []
  dependencies : List (String × String) := []
  labels : List Label := []
  issue_labels : List (String × String) := []
  meta : List (String × String) := []
deriving DecidableEq, Repr

/-- db.rs upsert_issue serializes issue.data with Value::to_string into the
TEXT column. -/
def rowOfIssue (i : Issue) : IssueRow :=
  { id := i.id, title := i.title, kind := i.kind, priority := i.priority
    status := i.status, description := i.description, design := i.design
    acceptance_criteria := i.acceptance_criteria, notes := i.notes
    data := i.data.map jsonToString }

/-- INSERT ... ON CONFLICT(id) DO UPDATE: replace the row with the matching
primary key in place, or append a new row.  (id is the PRIMARY KEY, so at
most one row matches.) -/
def upsertRow : List IssueRow → IssueRow → List IssueRow
  | [], row => [row]
  | r :: rest, row => if r.id = row.id then row :: rest else r :: upsertRow rest row

/-- db.rs upsert_issue. -/
def upsertIssue (c : Cache) (i : Issue) : Cache :=
  { c with issues := upsertRow c.issues (rowOfIssue i) }

/-- db.rs get_issue (SELECT ... WHERE id = ?1), returned as the raw row. -/
def getIssueRow (c : Cache) (id : String) : Option IssueRow :=
  c.issues.find? (fun r => r.id = id)

/-- INSERT ... ON CONFLICT(key) DO UPDATE on the _meta rows (key is the
PRIMARY KEY, so at most one row matches). -/
def metaSet : List (String × String) → String → String → List (String × String)
  | [], k, v => [(k, v)]
  | kv :: rest, k, v => if kv.1 = k then (k, v) :: rest else kv :: metaSet rest k v

/-- db.rs set_meta. -/
def setMeta (c : Cache) (key value : String) : Cache :=
  { c with meta := metaSet c.meta key value }

/-- db.rs get_meta. -/
def getMeta (c : Cache) (key : String) : Option String :=
  (c.meta.find? (fun kv => kv.1 = key)).map (fun kv => kv.2)

/-- db.rs add_dependency: INSERT OR IGNORE into dependencies. -/
def addDependencyRow (c : Cache) (issue_id depends_on_id : String) : Cache :=
  if (issue_id, depends_on_id) ∈ c.dependencies then c
  else { c with dependencies := c.dependencies ++ [(issue_id, depends_on_id)] }

/-- db.rs get_dependents: SELECT issue_id FROM dependencies WHERE
depends_on_id = ?1 ORDER BY issue_id. -/
def getDependents (c : Cache) (issue_id : String) : List String :=
  List.insertionSort (fun a b => strLe a b = true)
    ((c.dependencies.filter (fun e => e.2 = issue_id)).map (fun e => e.1))

/-- db.rs delete_issue: DELETE FROM issues WHERE id = ?1.  The schema
declares ON DELETE CASCADE on dependencies/issue_labels, but the connection
is opened without PRAGMA foreign_keys, which SQLite defaults to off, so only
the issues row is removed. -/
def deleteIssueRow (c : Cache) (issue_id : String) : Cache :=
  { c with issues := c.issues.filter (fun r => r.id ≠ issue_id) }

def deletedMarker (id : String) : String := "[deleted:" ++ id ++ "]"

/-- db.rs update_text_references: REPLACE the deleted id with
[deleted:id] in the title and data columns of every row.  The WHERE ...
LIKE clauses only restrict which rows the UPDATE statements touch (they
gate the reported change count); REPLACE is the identity on any row whose
text holds no literal occurrence, so the resulting table contents equal the
unconditional replacement modelled here. -/
def updateTextReferences (c : Cache) (deleted_id : String) : Cache :=
  { c with issues := c.issues.map (fun r =>
      { r with
        title := rustReplace r.title deleted_id (deletedMarker deleted_id)
        data := r.data.map (fun d => rustReplace d deleted_id (deletedMarker deleted_id)) }) }

/-- db.rs apply_issue_update: one UPDATE ... WHERE id per present field. -/
def applyIssueUpdate (c : Cache) (id : String) (u : IssueUpdate) : Cache :=
  { c with issues := c.issues.map (fun r =>
      if r.id = id then
        { r with
          title := u.title.getD r.title
          kind := u.kind.getD r.kind
          priority := u.priority.getD r.priority
          status := u.status.getD r.status
          description := (u.description.map some).getD r.description
          design := (u.design.map some).getD r.design
          acceptance_criteria := (u.acceptance_criteria.map some).getD r.acceptance_criteria
          notes := (u.notes.map some).getD r.notes
          data := ((u.data.map jsonToString).map some).getD r.data }
      else r) }

/-- db.rs clear_state: DELETE FROM issues; DELETE FROM _meta.  The other
tables are untouched (and with the foreign-key pragma off nothing
cascades). -/
def clearState (c : Cache) : Cache :=
  { c with issues := [], meta := [] }

/-- serde tag of an OpKind (rename_all snake_case). -/
def opKindName : OpKind → String
  | OpKind.create => "create"
  | OpKind.update => "update"
  | OpKind.comment => "comment"
  | OpKind.link => "link"
  | OpKind.unlink => "unlink"
  | OpKind.archive => "archive"

/-- The JSON value serde writes for an Event.  Struct serialization emits
the fields in declaration order (only maps are key-sorted). -/
def eventJson (e : Event) : Json :=
  Json.obj [("event_id", Json.str e.event_id), ("ts", Json.str e.ts),
            ("op", Json.str (opKindName e.op)), ("id", Json.str e.id),
            ("actor", Json.str e.actor), ("data", e.data)]

/-- Byte length of one log line: the serialized event plus the newline
(log.rs write_event returns start + encoded.len() + 1). -/
def eventLineLen (e : Event) : Nat :=
  (jsonToString (eventJson e)).utf8ByteSize + 1

/-- Byte length of a log made of the given event lines. -/
def logByteLen (log : List Event) : Nat :=
  (log.map eventLineLen).sum

/-- log.rs append_create_event, payload construction: when the issue has a
data object, insert title and status into it (kind and priority are NOT
inserted); when data is a non-object value the payload is that value
unchanged (as_object_mut yields nothing); when data is absent the payload is
the json! object of title, kind, priority, status (a BTreeMap, hence
key-sorted). -/
def createEventData (issue : Issue) : Json :=
  match issue.data with
  | some d =>
      match d with
      | Json.obj fields =>
          Json.obj (objInsert (objInsert fields "title" (Json.str issue.title))
                      "status" (Json.str issue.status))
      | other => other
  | none =>
      Json.obj [("kind", Json.str issue.kind), ("priority", Json.num issue.priority),
                ("status", Json.str issue.status), ("title", Json.str issue.title)]

/-- Payload log.rs apply_event expects for a Create event. -/
structure CreatePayload where
  title : String
  kind : String
  priority : Nat
  status : Option String

/-- serde: a String field must be a JSON string. -/
def parseString : Option Json → Option String
  | some (Json.str s) => some s
  | _ => none

/-- serde: an optional String field; absent or null give none, a string
gives some, anything else is a deserialization error. -/
def parseOptString : Option Json → Option (Option String)
  | none => some none
  | some Json.null => some none
  | some (Json.str s) => some (some s)
  | _ => none

/-- serde: a u32 field must be an integer in range. -/
def parseU32 : Option Json → Option Nat
  | some (Json.num n) => if 0 ≤ n ∧ n < 4294967296 then some n.toNat else none
  | _ => none

/-- serde: an optional u32 field. -/
def parseOptU32 : Option Json → Option (Option Nat)
  | none => some none
  | some Json.null => some none
  | some (Json.num n) => if 0 ≤ n ∧ n < 4294967296 then some (some n.toNat) else none
  | _ => none

/-- serde: an optional Value field; absent or null give none, any other
value is kept. -/
def parseOptJson : Option Json → Option (Option Json)
  | none => some none
  | some Json.null => some none
  | some v => some (some v)

/-- Deserialization of the CreatePayload struct in log.rs apply_event.
Unknown extra fields are ignored (serde default); a missing or ill-typed
title, kind or priority is an error. -/
def parseCreatePayload : Json → Option CreatePayload
  | Json.obj fields => do
      let title ← parseString (lookupField fields "title")
      let kind ← parseString (lookupField fields "kind")
      let priority ← parseU32 (lookupField fields "priority")
      let status ← parseOptString (lookupField fields "status")
      pure ⟨title, kind, priority, status⟩
  | _ => none

/-- Deserialization of IssueUpdate (all fields optional). -/
def parseIssueUpdate : Json → Option IssueUpdate
  | Json.obj fields => do
      let title ← parseOptString (lookupField fields "title")
      let kind ← parseOptString (lookupField fields "kind")
      let priority ← parseOptU32 (lookupField fields "priority")
      let status ← parseOptString (lookupField fields "status")
      let description ← parseOptString (lookupField fields "description")
      let design ← parseOptString (lookupField fields "design")
      let acceptance_criteria ← parseOptString (lookupField fields "acceptance_criteria")
      let notes ← parseOptString (lookupField fields "notes")
      let data ← parseOptJson (lookupField fields "data")
      pure { title := title, kind := kind, priority := priority, status := status,
             description := description, design := design,
             acceptance_criteria := acceptance_criteria, notes := notes, data := data }
  | _ => none

/-- Serialization of IssueUpdate (serde skips absent fields; to_value
produces a BTreeMap, so present fields appear in key order). -/
def updateJson (u : IssueUpdate) : Json :=
  Json.obj
    ((match u.acceptance_criteria with
      | some s => [("acceptance_criteria", Json.str s)] | none => []) ++
     (match u.data with | some j => [("data", j)] | none => []) ++
     (match u.description with
      | some s => [("description", Json.str s)] | none => []) ++
     (match u.design with | some s => [("design", Json.str s)] | none => []) ++
     (match u.kind with | some s => [("kind", Json.str s)] | none => []) ++
     (match u.notes with | some s => [("notes", Json.str s)] | none => []) ++
     (match u.priority with | some n => [("priority", Json.num n)] | none => []) ++
     (match u.status with | some s => [("status", Json.str s)] | none => []) ++
     (match u.title with | some s => [("title", Json.str s)] | none => []))

/-- log.rs apply_event.  none models the fatal replay error raised when a
line's payload fails to deserialize. -/
def applyEvent (c : Cache) (e : Event) : Option Cache :=
  match e.op with
  | OpKind.create =>
      match parseCreatePayload e.data with
      | none => none
      | some p =>
          let status := p.status.getD "open"
          if status = "deleted" then some c
          else some (upsertIssue c
            { id := e.id, title := p.title, kind := p.kind, priority := p.priority
              status := status, created_at := "", description := none, design := none
              acceptance_criteria := none, notes := none, data := some e.data })
  | OpKind.update =>
      match parseIssueUpdate e.data with
      | none => none
      | some u =>
          if u.status = some "deleted" then
            some (updateTextReferences (deleteIssueRow c e.id) e.id)
          else some (applyIssueUpdate c e.id u)
  | _ => some c

/-- Apply events left to right, failing fatally on the first error (the
replay transaction never commits a partial apply). -/
def applyEvents : Cache → List Event → Option Cache
  | c, [] => some c
  | c, e :: rest =>
      match applyEvent c e with
      | none => none
      | some c2 => applyEvents c2 rest

/-- The comparison the replay engine sorts by:
events.sort_by(event_id.cmp), a stable sort on the id string. -/
def eventIdLe (a b : Event) : Prop := strLe a.event_id b.event_id = true

instance : DecidableRel eventIdLe :=
  fun a b => inferInstanceAs (Decidable (strLe a.event_id b.event_id = true))

/-- Rust's sort_by is stable; insertion sort with a non-strict comparison is
the matching stable sort. -/
def sortEvents (l : List Event) : List Event := List.insertionSort eventIdLe l

/-- log.rs apply_all_events (full replay): parse every line, sort by
event_id, clear the projection, apply all events in one transaction, then
record the id of the last applied event and the byte length of the log. -/
def applyAllEvents (log : List Event) (c : Cache) : Option Cache :=
  let events := sortEvents log
  match applyEvents (clearState c) events with
  | none => none
  | some c2 =>
      let c3 := match events.getLast? with
        | some e => setMeta c2 "last_event_id" e.event_id
        | none => c2
      some (setMeta c3 "last_processed_offset" (toString (logByteLen log)))

/-- The out-of-order check of log.rs apply_incremental: walking the sorted
new events, each id must be strictly greater than the running last id
(seeded with the stored last_event_id).  ULID canonical strings compare
lexicographically exactly as the underlying 128-bit values, so the Ulid
comparison is modelled by string comparison on the id. -/
def checkMonotonic : Option String → List Event → Bool
  | _, [] => true
  | none, e :: rest => checkMonotonic (some e.event_id) rest
  | some last, e :: rest =>
      if strLe e.event_id last then false else checkMonotonic (some e.event_id) rest

/-- log.rs apply_incremental.  The stored byte offset is modelled by
splitting the log into the already-processed lines pre and the new lines
past the offset.  With no new lines the function returns without opening a
transaction; if a new event is not strictly above the stored last_event_id
it falls back to full replay; otherwise it applies the sorted new events on
top of the current cache and advances the meta entries. -/
def applyIncremental (pre newEvents : List Event) (c : Cache) : Option Cache :=
  match newEvents with
  | [] => some c
  | _ :: _ =>
      let events := sortEvents newEvents
      if checkMonotonic (getMeta c "last_event_id") events then
        match applyEvents c events with
        | none => none
        | some c2 =>
            let c3 := match events.getLast? with
              | some e => setMeta c2 "last_event_id" e.event_id
              | none => c2
            some (setMeta c3 "last_processed_offset"
                    (toString (logByteLen (pre ++ newEvents))))
      else applyAllEvents (pre ++ newEvents) c

/-- Errors of error.rs, restricted to the variants the embedded operations
produce or the claims mention; Io keeps only the action text. -/
inductive Err where
  | io (action : String)
  | emptyUpdate (entity_id : String)
  | custom (msg : String)
  | circularDependency (dep_from dep_to cycle_path : String)
  | invalidHash (msg : String)
  | blobNotFound (hash : String)
deriving DecidableEq, Repr

/-- The durable state a repository holds: the derived cache and the
append-only event log. -/
structure RepoState where
  cache : Cache := {}
  log : List Event := []

/-- char::is_whitespace restricted to the Latin-1 range (the only range the
theorems below evaluate): the ASCII whitespace characters plus NEL and
no-break space. -/
def rustIsWhitespace (c : Char) : Bool :=
  c = ' ' || c = '\t' || c = '\n' || c = '\r'
    || c.toNat = 0x0B || c.toNat = 0x0C || c.toNat = 0x85 || c.toNat = 0xA0

/-- char::is_alphanumeric, faithfully on the Latin-1 range: ASCII digits and
letters; the Unicode-alphabetic Latin-1 letters (U+00AA, U+00B5, U+00BA and
U+00C0..U+00FF except the multiplication and division signs) and the
Latin-1 numeric characters (superscripts and vulgar fractions).  Code
points above U+00FF (many of which are also alphanumeric in Rust) are
outside the range this development evaluates and map to false; the label
theorems therefore restrict names to Latin-1. -/
def rustIsAlphanumeric (c : Char) : Bool :=
  let n := c.toNat
  (0x30 ≤ n && n ≤ 0x39) || (0x41 ≤ n && n ≤ 0x5A) || (0x61 ≤ n && n ≤ 0x7A)
    || n = 0xAA || n = 0xB5 || n = 0xBA
    || n = 0xB2 || n = 0xB3 || n = 0xB9
    || (0xBC ≤ n && n ≤ 0xBE)
    || (0xC0 ≤ n && n ≤ 0xFF && n ≠ 0xD7 && n ≠ 0xF7)

/-- str::trim as a character-list computation (drop Unicode whitespace from
both ends); only its emptiness is consumed. -/
def rustTrim (s : String) : List Char :=
  ((s.toList.dropWhile rustIsWhitespace).reverse.dropWhile rustIsWhitespace).reverse

/-- lib.rs validate_label_name: non-empty after trim, at most 50 BYTES
(str::len counts UTF-8 bytes), and every character alphanumeric (in the
Unicode sense of char::is_alphanumeric) or a hyphen or underscore. -/
def validateLabelName (name : String) : Except Err Unit :=
  if (rustTrim name).isEmpty then
    Except.error (Err.io "Label name cannot be empty")
  else if name.utf8ByteSize > 50 then
    Except.error (Err.io "Label name cannot exceed 50 characters")
  else if ¬ (name.toList.all fun c => rustIsAlphanumeric c || c = '-' || c = '_') then
    Except.error
      (Err.io "Label name can only contain alphanumeric characters, hyphens, and underscores")
  else Except.ok ()

/-- lib.rs add_issue_dependency: both issues must exist in the cache, the
edge must not be a self-dependency, and then the edge is inserted (INSERT
OR IGNORE) in a committed transaction.  No event is appended and no cycle
check of any kind is performed. -/
def addIssueDependency (st : RepoState) (issue_id depends_on_id : String) :
    Except Err RepoState :=
  if (getIssueRow st.cache issue_id).isNone then
    Except.error (Err.io ("Issue " ++ issue_id ++ " not found"))
  else if (getIssueRow st.cache depends_on_id).isNone then
    Except.error (Err.io ("Issue " ++ depends_on_id ++ " not found"))
  else if issue_id = depends_on_id then
    Except.error (Err.io "An issue cannot depend on itself")
  else
    Except.ok { st with cache := addDependencyRow st.cache issue_id depends_on_id }

/-- lib.rs remove_issue_dependency via db.rs remove_dependency. -/
def removeIssueDependency (st : RepoState) (issue_id depends_on_id : String) :
    Except Err RepoState :=
  if (issue_id, depends_on_id) ∈ st.cache.dependencies then
    Except.ok { st with cache :=
      { st.cache with dependencies :=
          st.cache.dependencies.filter (fun e => e ≠ (issue_id, depends_on_id)) } }
  else
    Except.error (Err.custom
      ("Dependency not found: " ++ issue_id ++ " does not depend on " ++ depends_on_id))

/-- Zero-padding of the serial in the issue id (format argument 03). -/
def pad3 (n : Nat) : String :=
  let s := toString n
  if s.length < 3 then String.mk (List.replicate (3 - s.length) '0') ++ s else s

/-- The stored issue serial: _meta.last_issue_serial parsed as a u32,
defaulting to 0 when absent or unparseable. -/
def storedSerial (c : Cache) : Nat :=
  ((getMeta c "last_issue_serial").bind rustParseU32).getD 0

/-- lib.rs next_issue_id.  It runs in its OWN transaction, committed before
the caller appends any event: it reads id_prefix (error when absent), reads
and parses last_issue_serial (defaulting to 0 when absent or unparseable as
a u32), stores the incremented serial, commits, and returns the formatted
id.  The serial is a u32: the increment wraps at u32::MAX, modelled by the
mod-2^32 reduction (release builds compile last_serial + 1 to a wrapping
add; a debug build would panic there instead of storing a value). -/
def nextIssueId (c : Cache) : Except Err (Cache × String) :=
  match getMeta c "id_prefix" with
  | none => Except.error (Err.io "missing repository configuration: id_prefix")
  | some pref =>
      let last := storedSerial c
      let next := (last + 1) % 4294967296
      Except.ok (setMeta c "last_issue_serial" (toString next),
                 pref ++ "-" ++ pad3 next)

/-- The entropy a mutation draws from outside the durable state: the fresh
ULID chosen by next_event_ulid (regenerated until strictly above the stored
last_event_id), the wall-clock millisecond timestamp, and the actor from
the USER/USERNAME environment (or unknown). -/
structure EventMeta where
  eventId : String
  ts : String
  actor : String

/-- log.rs build_event. -/
def buildEvent (m : EventMeta) (id : String) (op : OpKind) (data : Json) : Event :=
  { event_id := m.eventId, ts := m.ts, op := op, id := id, actor := m.actor, data := data }

/-- Result and post-state of a fallible mutation; the state is reported
even on error because next_issue_id commits before the append. -/
structure Outcome (α : Type) where
  state : RepoState
  result : Except Err α

/-- lib.rs create_issue_with_data.  appendOk models whether the log append
(write_event) succeeds; on failure the operation aborts before the cache
transaction, but the serial increment of next_issue_id is already
committed.  createdAt is the creation timestamp (chrono now). -/
def createIssueWithData (m : EventMeta) (appendOk : Bool) (st : RepoState)
    (title kind : String) (priority : Nat) (depends_on : List String)
    (data : Option Json) (createdAt : String) : Outcome Event :=
  match nextIssueId st.cache with
  | Except.error e => ⟨st, Except.error e⟩
  | Except.ok (c1, issue_id) =>
      let issue : Issue :=
        { id := issue_id, title := title, kind := kind, priority := priority
          status := "open", created_at := createdAt, description := none
          design := none, acceptance_criteria := none, notes := none, data := data }
      let event := buildEvent m issue_id OpKind.create (createEventData issue)
      if appendOk then
        let log2 := st.log ++ [event]
        let c2 := upsertIssue c1 issue
        let c3 := depends_on.foldl (fun acc dep => addDependencyRow acc issue_id dep) c2
        let c4 := setMeta c3 "last_event_id" event.event_id
        let c5 := setMeta c4 "last_processed_offset" (toString (logByteLen log2))
        ⟨{ cache := c5, log := log2 }, Except.ok event⟩
      else
        ⟨{ cache := c1, log := st.log }, Except.error (Err.io "append event to log")⟩

/-- lib.rs update_issue: reject an empty update, append the Update event,
then apply the partial update and advance the meta entries in one cache
transaction.  (The append is taken to succeed here; append failure is
modelled on the create path, the operation claim C4 examines.) -/
def updateIssue (m : EventMeta) (st : RepoState) (id : String) (u : IssueUpdate) :
    Except Err (RepoState × Event) :=
  if u.isEmpty then Except.error (Err.emptyUpdate id)
  else
    let event := buildEvent m id OpKind.update (updateJson u)
    let log2 := st.log ++ [event]
    let c1 := applyIssueUpdate st.cache id u
    let c2 := setMeta c1 "last_event_id" event.event_id
    let c3 := setMeta c2 "last_processed_offset" (toString (logByteLen log2))
    Except.ok ({ cache := c3, log := log2 }, event)

/-- What lib.rs delete_issue reports (the references_updated change count,
which no claim consumes, is omitted). -/
structure DeleteResult where
  issue_id : String
  title : String
  dependents : List String

/-- lib.rs delete_issue: the issue must exist in the cache; an Update event
with status deleted is appended; in one cache transaction the row is
removed, text references are repaired, and the meta entries advance. -/
def deleteIssue (m : EventMeta) (st : RepoState) (issue_id : String) :
    Except Err (RepoState × DeleteResult) :=
  match getIssueRow st.cache issue_id with
  | none =>
      Except.error (Err.io ("Issue " ++ issue_id ++ " not found or already deleted"))
  | some row =>
      let dependents := getDependents st.cache issue_id
      let u : IssueUpdate := { status := some "deleted" }
      let event := buildEvent m issue_id OpKind.update (updateJson u)
      let log2 := st.log ++ [event]
      let c1 := updateTextReferences (deleteIssueRow st.cache issue_id) issue_id
      let c2 := setMeta c1 "last_event_id" event.event_id
      let c3 := setMeta c2 "last_processed_offset" (toString (logByteLen log2))
      Except.ok ({ cache := c3, log := log2 },
                 { issue_id := issue_id, title := row.title, dependents := dependents })

/-- lib.rs get_all_dependents_recursive_sorted, inner visit, as one
structurally recursive worklist function: the head id, when not yet
visited, is marked visited, its dependents are traversed first, and the id
itself is appended (post-order) when it exists in the cache; then the rest
of the list is traversed with the updated visited set and result.  The
fuel only bounds the recursion (it decreases on every step); any fuel at
least the total number of traversal steps reproduces the Rust recursion
exactly, and the entry point below supplies a generous bound. -/
def visitDependentList (c : Cache) : Nat → List String → List String → List String →
    List String × List String
  | _, [], visited, result => (visited, result)
  | 0, _ :: _, visited, result => (visited, result)
  | Nat.succ fuel, id :: rest, visited, result =>
      if id ∈ visited then visitDependentList c fuel rest visited result
      else
        let pair := visitDependentList c fuel (getDependents c id) (visited ++ [id]) result
        let result2 := if (getIssueRow c id).isSome then pair.2 ++ [id] else pair.2
        visitDependentList c fuel rest pair.1 result2

/-- lib.rs get_all_dependents_recursive_sorted, entry point: visit every
direct dependent of the issue (the root itself is never marked visited). -/
def getAllDependentsSorted (c : Cache) (issue_id : String) : List String :=
  (visitDependentList c
    ((c.issues.length + c.dependencies.length + 2) * (c.issues.length + c.dependencies.length + 2))
    (getDependents c issue_id) [] []).2

/-- The dependent-deletion loop of lib.rs delete_issue_cascade:
for dependent in all_dependents.iter().rev(), each deletion its own
transaction; a failed deletion is reported (eprintln) and skipped, and it
consumes no event id because delete_issue fails before building the event.
metas supplies the per-deletion event entropy; the returned list holds the
issue ids successfully deleted, in deletion order. -/
def deleteSequence (metas : Nat → EventMeta) :
    RepoState → Nat → List String → RepoState × Nat × List String
  | st, k, [] => (st, k, [])
  | st, k, id :: rest =>
      match deleteIssue (metas k) st id with
      | Except.ok (st2, res) =>
          let out := deleteSequence metas st2 (k + 1) rest
          (out.1, out.2.1, res.issue_id :: out.2.2)
      | Except.error _ => deleteSequence metas st k rest

/-- lib.rs delete_issue_cascade: gather the transitive dependents
(post-order), iterate over that list REVERSED deleting each, then delete
the root; a root failure propagates.  Returns the ids deleted in order. -/
def deleteIssueCascade (metas : Nat → EventMeta) (st : RepoState) (issue_id : String) :
    Except Err (RepoState × List String) :=
  let order := (getAllDependentsSorted st.cache issue_id).reverse
  let out := deleteSequence metas st 0 order
  match deleteIssue (metas out.2.1) out.1 issue_id with
  | Except.error e => Except.error e
  | Except.ok (st3, res) => Except.ok (st3, out.2.2 ++ [res.issue_id])

/-! SHA-256 (FIPS 180-4), the hash blob.rs obtains from the sha2 crate,
computed over byte lists (each entry 0..255). -/

def u32mask (x : Nat) : Nat := x % 4294967296

def rotr32 (n x : Nat) : Nat := u32mask ((x >>> n) ||| (x <<< (32 - n)))

def shaCh (e f g : Nat) : Nat := (e &&& f) ^^^ ((e ^^^ 4294967295) &&& g)

def shaMaj (a b c : Nat) : Nat := (a &&& b) ^^^ (a &&& c) ^^^ (b &&& c)

def smallSigma0 (w : Nat) : Nat := rotr32 7 w ^^^ rotr32 18 w ^^^ (w >>> 3)

def smallSigma1 (w : Nat) : Nat := rotr32 17 w ^^^ rotr32 19 w ^^^ (w >>> 10)

def bigSigma0 (a : Nat) : Nat := rotr32 2 a ^^^ rotr32 13 a ^^^ rotr32 22 a

def bigSigma1 (e : Nat) : Nat := rotr32 6 e ^^^ rotr32 11 e ^^^ rotr32 25 e

/-- The 64 round constants of FIPS 180-4 (fractional parts of the cube
roots of the first 64 primes), written as decimal literals. -/
def shaK : List Nat :=
  [1116352408, 1899447441, 3049323471, 3921009573, 961987163,
   1508970993, 2453635748, 2870763221, 3624381080, 310598401,
   607225278, 1426881987, 1925078388, 2162078206, 2614888103,
   3248222580, 3835390401, 4022224774, 264347078, 604807628,
   770255983, 1249150122, 1555081692, 1996064986, 2554220882,
   2821834349, 2952996808, 3210313671, 3336571891, 3584528711,
   113926993, 338241895, 666307205, 773529912, 1294757372,
   1396182291, 1695183700, 1986661051, 2177026350, 2456956037,
   2730485921, 2820302411, 3259730800, 3345764771, 3516065817,
   3600352804, 4094571909, 275423344, 430227734, 506948616,
   659060556, 883997877, 958139571, 1322822218, 1537002063,
   1747873779, 1955562222, 2024104815, 2227730452, 2361852424,
   2428436474, 2756734187, 3204031479, 3329325298]

/-- Big-endian 64-bit length field of the padding. -/
def be64 (n : Nat) : List Nat :=
  [(n >>> 56) % 256, (n >>> 48) % 256, (n >>> 40) % 256, (n >>> 32) % 256,
   (n >>> 24) % 256, (n >>> 16) % 256, (n >>> 8) % 256, n % 256]

/-- Merkle-Damgard padding: 0x80, zeros to 56 mod 64, bit length. -/
def sha256Pad (msg : List Nat) : List Nat :=
  let L := msg.length
  msg ++ [0x80] ++ List.replicate ((119 - (L % 64)) % 64) 0 ++ be64 (L * 8)

/-- Big-endian 32-bit words from bytes. -/
def bytesToWords : List Nat → List Nat
  | b0 :: b1 :: b2 :: b3 :: rest =>
      (((b0 * 256 + b1) * 256 + b2) * 256 + b3) :: bytesToWords rest
  | _ => []

/-- Extend a 16-word block to the 64-entry message schedule. -/
def extendSchedule : List Nat → Nat → List Nat
  | ws, 0 => ws
  | ws, Nat.succ k =>
      let i := ws.length
      let w := u32mask (smallSigma1 (ws.getD (i - 2) 0) + ws.getD (i - 7) 0
                          + smallSigma0 (ws.getD (i - 15) 0) + ws.getD (i - 16) 0)
      extendSchedule (ws ++ [w]) k

/-- The eight working variables of the compression function. -/
structure H8 where
  a : Nat
  b : Nat
  c : Nat
  d : Nat
  e : Nat
  f : Nat
  g : Nat
  h : Nat

def sha256Init : H8 :=
  { a := 1779033703, b := 3144134277, c := 1013904242,
    d := 2773480762, e := 1359893119, f := 2600822924,
    g := 528734635, h := 1541459225 }

def compressStep (st : H8) (kw : Nat × Nat) : H8 :=
  let t1 := u32mask (st.h + bigSigma1 st.e + shaCh st.e st.f st.g + kw.1 + kw.2)
  let t2 := u32mask (bigSigma0 st.a + shaMaj st.a st.b st.c)
  { a := u32mask (t1 + t2), b := st.a, c := st.b, d := st.c,
    e := u32mask (st.d + t1), f := st.e, g := st.f, h := st.g }

def processBlock (hv : H8) (blockBytes : List Nat) : H8 :=
  let ws := extendSchedule (bytesToWords blockBytes) 48
  let st := (shaK.zip ws).foldl compressStep hv
  { a := u32mask (hv.a + st.a), b := u32mask (hv.b + st.b),
    c := u32mask (hv.c + st.c), d := u32mask (hv.d + st.d),
    e := u32mask (hv.e + st.e), f := u32mask (hv.f + st.f),
    g := u32mask (hv.g + st.g), h := u32mask (hv.h + st.h) }

/-- One compression step per 64-byte block; the fuel (any value at least
the number of blocks, here the byte count) makes the recursion structural. -/
def processBlocksFuel (hv : H8) : Nat → List Nat → H8
  | _, [] => hv
  | 0, _ => hv
  | Nat.succ fuel, b :: rest =>
      processBlocksFuel (processBlock hv ((b :: rest).take 64)) fuel (rest.drop 63)

def processBlocks (hv : H8) (bytes : List Nat) : H8 :=
  processBlocksFuel hv bytes.length bytes

def wordBytes (w : Nat) : List Nat :=
  [(w >>> 24) % 256, (w >>> 16) % 256, (w >>> 8) % 256, w % 256]

/-- The 32-byte SHA-256 digest of a byte list. -/
def sha256 (msg : List Nat) : List Nat :=
  let hv := processBlocks sha256Init (sha256Pad msg)
  wordBytes hv.a ++ wordBytes hv.b ++ wordBytes hv.c ++ wordBytes hv.d
    ++ wordBytes hv.e ++ wordBytes hv.f ++ wordBytes hv.g ++ wordBytes hv.h

def hexDigit (n : Nat) : Char :=
  if n < 10 then Char.ofNat (48 + n) else Char.ofNat (87 + n)

def byteHexChars (b : Nat) : List Char := [hexDigit (b / 16), hexDigit (b % 16)]

def hexCharsOf : List Nat → List Char
  | [] => []
  | b :: rest => byteHexChars b ++ hexCharsOf rest

/-- Lowercase hexadecimal rendering of a byte list (two digits a byte). -/
def bytesToHex (bs : List Nat) : String := String.mk (hexCharsOf bs)

/-- blob.rs calculate_hash: lowercase hex of the SHA-256 digest. -/
def calculateHash (content : List Nat) : String := bytesToHex (sha256 content)

/-- The blob directory: files under blobs, keyed by their name (the hash),
holding byte contents. -/
abbrev BlobStore := List (String × List Nat)

def blobLookup (s : BlobStore) (hash : String) : Option (List Nat) :=
  (List.find? (fun e => e.1 = hash) s).map (fun e => e.2)

/-- blob.rs write_blob: hash the content; if the file named by the hash
already exists return the hash WITHOUT rewriting; otherwise create the
file.  Returns the hash and the resulting store. -/
def writeBlob (s : BlobStore) (content : List Nat) : String × BlobStore :=
  let hash := calculateHash content
  if (blobLookup s hash).isSome then (hash, s)
  else (hash, s ++ [(hash, content)])

/-- blob.rs validate_hash: exactly 64 characters, each an ASCII hex digit
that is not uppercase (so 0-9 and a-f). -/
def validateHash (hash : String) : Except Err Unit :=
  if hash.length ≠ 64 then
    Except.error (Err.invalidHash ("Hash must be 64 characters, got " ++ toString hash.length))
  else if ¬ (hash.toList.all fun c =>
      (('0' ≤ c && c ≤ '9') || ('a' ≤ c && c ≤ 'f'))) then
    Except.error (Err.invalidHash "Hash must contain only lowercase hexadecimal characters")
  else Except.ok ()

/-- blob.rs read_blob: validate the hash, then return the file contents or
BlobNotFound. -/
def readBlob (s : BlobStore) (hash : String) : Except Err (List Nat) :=
  match validateHash hash with
  | Except.error e => Except.error e
  | Except.ok _ =>
      match blobLookup s hash with
      | none => Except.error (Err.blobNotFound hash)
      | some content => Except.ok content

/-! Helper lemmas about the meta store and rows. -/

@[simp] theorem setMeta_issues (c : Cache) (k v : String) :
    (setMeta c k v).issues = c.issues := rfl

@[simp] theorem setMeta_dependencies (c : Cache) (k v : String) :
    (setMeta c k v).dependencies = c.dependencies := rfl

@[simp] theorem setMeta_labels (c : Cache) (k v : String) :
    (setMeta c k v).labels = c.labels := rfl

@[simp] theorem setMeta_issue_labels (c : Cache) (k v : String) :
    (setMeta c k v).issue_labels = c.issue_labels := rfl

theorem metaSet_find_same (l : List (String × String)) (k v : String) :
    (metaSet l k v).find? (fun kv => kv.1 = k) = some (k, v) := by
  induction l with
  | nil => simp [metaSet]
  | cons kv rest ih =>
      by_cases h : kv.1 = k
      · simp [metaSet, h]
      · simp [metaSet, h, ih]

theorem metaSet_find_ne (l : List (String × String)) (k v k2 : String) (h : k2 ≠ k) :
    (metaSet l k v).find? (fun kv => kv.1 = k2) = l.find? (fun kv => kv.1 = k2) := by
  induction l with
  | nil => simp [metaSet, Ne.symm h]
  | cons kv rest ih =>
      by_cases hk : kv.1 = k
      · have hne : ¬ kv.1 = k2 := by rw [hk]; exact Ne.symm h
        simp [metaSet, hk, hne, Ne.symm h, ih]
      · by_cases hk2 : kv.1 = k2
        · simp [metaSet, hk, hk2, Ne.symm h, h]
        · simp [metaSet, hk, hk2, Ne.symm h, h, ih]

theorem getMeta_setMeta_same (c : Cache) (k v : String) :
    getMeta (setMeta c k v) k = some v := by
  simp [getMeta, setMeta, metaSet_find_same]

theorem getMeta_setMeta_ne (c : Cache) (k v k2 : String) (h : k2 ≠ k) :
    getMeta (setMeta c k v) k2 = getMeta c k2 := by
  simp [getMeta, setMeta, metaSet_find_ne c.meta k v k2 h]

/-! A generic issue row used by the concrete scenarios. -/

def mkRow (id title : String) : IssueRow :=
  { id := id, title := title, kind := "task", priority := 1, status := "open",
    description := none, design := none, acceptance_criteria := none, notes := none,
    data := none }

/-! C1: dependency-cycle rejection. -/

def c1State : RepoState :=
  { cache := { issues := [mkRow "bd-001" "a", mkRow "bd-002" "b"],
               dependencies := [("bd-002", "bd-001")] },
    log := [] }

/-- C1 counterexample: in a cache where bd-002 depends on bd-001 (so bd-001
is reachable from bd-002 by one dependency edge), the claim says
add_dependency(bd-001, bd-002) must fail with CircularDependency and leave
the edge set unchanged; the code instead succeeds and inserts the edge,
closing the cycle. -/
theorem c1_cycle_not_rejected :
    ("bd-002", "bd-001") ∈ c1State.cache.dependencies ∧
    (addIssueDependency c1State "bd-001" "bd-002").map (fun st => st.cache.dependencies)
      = Except.ok [("bd-002", "bd-001"), ("bd-001", "bd-002")] :=
  ⟨by decide, by rfl⟩

/-- C1 (amended): add_issue_dependency, whenever both issues exist in the
cache and the edge is not a self-dependency, always succeeds and returns
the state with the edge inserted (a no-op if already present); it performs
no cycle or reachability check of any kind. -/
theorem addIssueDependency_no_cycle_check (st : RepoState) (f t : String)
    (hf : (getIssueRow st.cache f).isSome = true)
    (ht : (getIssueRow st.cache t).isSome = true)
    (hne : f ≠ t) :
    addIssueDependency st f t
      = Except.ok { st with cache := addDependencyRow st.cache f t } := by
  have hf2 : (getIssueRow st.cache f).isNone = false := by
    cases hgf : getIssueRow st.cache f <;> simp_all
  have ht2 : (getIssueRow st.cache t).isNone = false := by
    cases hgt : getIssueRow st.cache t <;> simp_all
  simp [addIssueDependency, hf2, ht2, hne]

/-- C1 witness: the amended theorem applied at the concrete cycle-closing
state. -/
theorem c1_witness :
    ((getIssueRow c1State.cache "bd-001").isSome = true ∧
     (getIssueRow c1State.cache "bd-002").isSome = true ∧
     "bd-001" ≠ "bd-002") ∧
    addIssueDependency c1State "bd-001" "bd-002"
      = Except.ok { c1State with
          cache := addDependencyRow c1State.cache "bd-001" "bd-002" } :=
  ⟨⟨by decide, by decide, by decide⟩,
   addIssueDependency_no_cycle_check c1State "bd-001" "bd-002"
     (by decide) (by decide) (by decide)⟩

/-! C5: the EmptyUpdate predicate and data-only updates. -/

def c5update : IssueUpdate := { data := some (Json.obj [("documents", Json.obj [])]) }

/-- C5: the claim says an update is rejected with EmptyUpdate exactly when
every optional field INCLUDING data is absent, so a data-only update is
accepted.  In the code is_empty ignores data: a data-only update satisfies
is_empty and update_issue rejects it with EmptyUpdate (hence
add_document_to_issue, which always submits a data-only update, always
fails). -/
theorem data_only_update_rejected :
    c5update.isEmpty = true ∧ c5update.data.isSome = true ∧
    ∀ (m : EventMeta) (st : RepoState) (id : String),
      updateIssue m st id c5update = Except.error (Err.emptyUpdate id) := by
  refine ⟨rfl, rfl, fun m st id => ?_⟩
  simp [updateIssue, c5update, IssueUpdate.isEmpty]

/-- C5 witness: the rejection evaluated at a concrete state. -/
theorem c5_witness :
    updateIssue ⟨"01A", "2024-01-01T00:00:00.000Z", "u"⟩ {} "bd-001" c5update
      = Except.error (Err.emptyUpdate "bd-001") :=
  data_only_update_rejected.2.2 ⟨"01A", "2024-01-01T00:00:00.000Z", "u"⟩ {} "bd-001"

/-- Equality of Except results is decidable when both components are. -/
def exceptDecEq {e a : Type} [DecidableEq e] [DecidableEq a] :
    DecidableEq (Except e a) := fun x y =>
  match x, y with
  | Except.ok u, Except.ok v =>
      if h : u = v then Decidable.isTrue (congrArg Except.ok h)
      else Decidable.isFalse (fun he => h (Except.ok.inj he))
  | Except.error u, Except.error v =>
      if h : u = v then Decidable.isTrue (congrArg Except.error h)
      else Decidable.isFalse (fun he => h (Except.error.inj he))
  | Except.ok _, Except.error _ => Decidable.isFalse (fun he => Except.noConfusion he)
  | Except.error _, Except.ok _ => Decidable.isFalse (fun he => Except.noConfusion he)

instance {e a : Type} [DecidableEq e] [DecidableEq a] : DecidableEq (Except e a) :=
  exceptDecEq

/-! C8: label-name validation. -/

theorem rustTrim_eq_nil_iff (s : String) :
    rustTrim s = [] ↔ ∀ c ∈ s.toList, rustIsWhitespace c = true := by
  unfold rustTrim
  rw [List.reverse_eq_nil_iff, List.dropWhile_eq_nil_iff]
  constructor
  · intro h c hc
    rcases List.mem_append.mp
        ((List.takeWhile_append_dropWhile (p := rustIsWhitespace) (l := s.toList)) ▸ hc) with
      htk | hdr
    · exact List.mem_takeWhile_imp htk
    · exact h c (List.mem_reverse.mpr hdr)
  · intro h c hc
    exact h c ((List.dropWhile_sublist _).subset (List.mem_reverse.mp hc))

/-- C8 counterexample: the claim restricts accepted characters to
[A-Za-z0-9_-], but char::is_alphanumeric is Unicode-wide, so the one-letter
name consisting of e-acute is accepted although it lies outside that set;
and the length rule counts bytes, not characters: 26 copies of e-acute is a
26-character name that the code rejects as longer than 50 (bytes). -/
theorem c8_unicode_label_accepted :
    validateLabelName "é" = Except.ok () ∧
    ("é".toList.all fun c => c.isAlphanum || c = '-' || c = '_') = false ∧
    validateLabelName (String.mk (List.replicate 26 'é'))
      = Except.error (Err.io "Label name cannot exceed 50 characters") ∧
    (String.mk (List.replicate 26 'é')).length = 26 ∧
    (String.mk (List.replicate 26 'é')).utf8ByteSize = 52 :=
  ⟨by decide, by decide, by decide, by decide, by decide⟩

/-- C8 (amended): for names of Latin-1 characters, add_label rejects with
InvalidLabelName exactly those names that consist entirely of whitespace,
or exceed 50 UTF-8 BYTES, or contain a character that is neither
Unicode-alphanumeric nor a hyphen nor an underscore; every other name is
accepted (in particular non-ASCII letters such as e-acute pass). -/
theorem validateLabelName_spec (name : String)
    (_hrange : ∀ c ∈ name.toList, c.toNat < 256) :
    validateLabelName name = Except.ok () ↔
      ((¬ ∀ c ∈ name.toList, rustIsWhitespace c = true) ∧
       name.utf8ByteSize ≤ 50 ∧
       ∀ c ∈ name.toList, (rustIsAlphanumeric c || c = '-' || c = '_') = true) := by
  have htrim := rustTrim_eq_nil_iff name
  unfold validateLabelName
  split_ifs with h1 h2 h3
  · exact iff_of_false (by simp) (fun hr => hr.1 (htrim.mp (List.isEmpty_iff.mp h1)))
  · exact iff_of_false (by simp) (fun hr => absurd hr.2.1 (by omega))
  · refine iff_of_true rfl ⟨fun hws => ?_, by omega, ?_⟩
    · exact h1 (by rw [List.isEmpty_iff]; exact htrim.mpr hws)
    · rw [List.all_eq_true] at h3
      exact h3
  · refine iff_of_false (by simp) (fun hr => h3 ?_)
    rw [List.all_eq_true]
    exact hr.2.2

/-- C8 witness: the amended characterization applied to a concrete
accepted name. -/
theorem c8_witness :
    (∀ c ∈ "valid-name_1".toList, c.toNat < 256) ∧
    (validateLabelName "valid-name_1" = Except.ok () ↔
      ((¬ ∀ c ∈ "valid-name_1".toList, rustIsWhitespace c = true) ∧
       "valid-name_1".utf8ByteSize ≤ 50 ∧
       ∀ c ∈ "valid-name_1".toList,
         (rustIsAlphanumeric c || c = '-' || c = '_') = true)) :=
  ⟨by decide, validateLabelName_spec "valid-name_1" (by decide)⟩

/-! C9: blob-store round trip and idempotence. -/

theorem wordBytes_lt (w : Nat) : ∀ b ∈ wordBytes w, b < 256 := by
  intro b hb
  simp only [wordBytes, List.mem_cons, List.not_mem_nil, or_false] at hb
  rcases hb with h | h | h | h <;> subst h <;> exact Nat.mod_lt _ (by norm_num)

theorem sha256_bytes_lt (msg : List Nat) : ∀ b ∈ sha256 msg, b < 256 := by
  intro b hb
  simp only [sha256, List.mem_append] at hb
  rcases hb with ((((((h | h) | h) | h) | h) | h) | h) | h <;> exact wordBytes_lt _ b h

theorem sha256_length (msg : List Nat) : (sha256 msg).length = 32 := by
  simp [sha256, wordBytes]

theorem hexDigit_ok :
    ∀ n, n < 16 →
      (('0' ≤ hexDigit n && hexDigit n ≤ '9')
        || ('a' ≤ hexDigit n && hexDigit n ≤ 'f')) = true := by decide

theorem hexCharsOf_length (bs : List Nat) : (hexCharsOf bs).length = 2 * bs.length := by
  induction bs with
  | nil => rfl
  | cons b rest ih => simp [hexCharsOf, byteHexChars, ih]; ring

theorem hexCharsOf_all (bs : List Nat) (hb : ∀ b ∈ bs, b < 256) :
    ∀ c ∈ hexCharsOf bs,
      (('0' ≤ c && c ≤ '9') || ('a' ≤ c && c ≤ 'f')) = true := by
  induction bs with
  | nil => intro c hc; cases hc
  | cons b rest ih =>
      intro c hc
      have hblt : b < 256 := hb b (List.mem_cons_self b rest)
      rcases List.mem_append.mp hc with hhd | htl
      · simp only [byteHexChars, List.mem_cons, List.not_mem_nil, or_false] at hhd
        rcases hhd with h | h <;> subst h
        · exact hexDigit_ok (b / 16) (by omega)
        · exact hexDigit_ok (b % 16) (by omega)
      · exact ih (fun x hx => hb x (List.mem_cons_of_mem b hx)) c htl

theorem calculateHash_length (b : List Nat) : (calculateHash b).length = 64 := by
  show (String.mk (hexCharsOf (sha256 b))).length = 64
  show (hexCharsOf (sha256 b)).length = 64
  rw [hexCharsOf_length, sha256_length]

theorem calculateHash_valid (b : List Nat) :
    validateHash (calculateHash b) = Except.ok () := by
  have hlen := calculateHash_length b
  have hall : (calculateHash b).toList.all
      (fun c => (('0' ≤ c && c ≤ '9') || ('a' ≤ c && c ≤ 'f'))) = true := by
    rw [List.all_eq_true]
    exact hexCharsOf_all (sha256 b) (sha256_bytes_lt b)
  unfold validateHash
  rw [if_neg (by omega), if_neg (fun hc => hc hall)]

theorem blobLookup_append_self (s : BlobStore) (h : String) (b : List Nat)
    (hs : blobLookup s h = none) : blobLookup (s ++ [(h, b)]) h = some b := by
  have hfind : s.find? (fun e => e.1 = h) = none := by
    cases hf : s.find? (fun e => e.1 = h) with
    | none => rfl
    | some e => rw [blobLookup, hf] at hs; cases hs
  rw [blobLookup, List.find?_append, hfind]
  simp

/-- C9: read(write(b)) returns exactly b whenever the store holds no
colliding foreign content under b's hash (the spec's SHA-256
collision-resistance assumption expressed on the store), and a second
write of b returns the same 64-character lowercase-hex hash while leaving
the store untouched (the existing blob file is not rewritten). -/
theorem blob_write_read_spec (s : BlobStore) (b : List Nat)
    (hs : blobLookup s (calculateHash b) = none ∨
          blobLookup s (calculateHash b) = some b) :
    readBlob (writeBlob s b).2 (writeBlob s b).1 = Except.ok b ∧
    writeBlob (writeBlob s b).2 b = ((writeBlob s b).1, (writeBlob s b).2) ∧
    (writeBlob s b).1.length = 64 ∧
    ((writeBlob s b).1.toList.all fun c =>
      (('0' ≤ c && c ≤ '9') || ('a' ≤ c && c ≤ 'f'))) = true := by
  have hval := calculateHash_valid b
  have hlen := calculateHash_length b
  have hall : (calculateHash b).toList.all
      (fun c => (('0' ≤ c && c ≤ '9') || ('a' ≤ c && c ≤ 'f'))) = true := by
    rw [List.all_eq_true]
    exact hexCharsOf_all (sha256 b) (sha256_bytes_lt b)
  rcases hs with hnone | hsome
  · have hw : writeBlob s b = (calculateHash b, s ++ [(calculateHash b, b)]) := by
      simp [writeBlob, hnone]
    rw [hw]
    have hfound := blobLookup_append_self s (calculateHash b) b hnone
    refine ⟨by simp [readBlob, hval, hfound], ?_, hlen, hall⟩
    simp [writeBlob, hfound]
  · have hw : writeBlob s b = (calculateHash b, s) := by
      simp [writeBlob, hsome]
    rw [hw]
    refine ⟨by simp [readBlob, hval, hsome], ?_, hlen, hall⟩
    simp [writeBlob, hsome]

set_option maxRecDepth 40000 in
/-- C9 witness: round trip of the bytes of "test" through an empty store;
the hash equals the value asserted by the crate's own unit test
(blob.rs test_hash_format). -/
theorem c9_witness :
    (blobLookup [] (calculateHash [116, 101, 115, 116]) = none ∨
     blobLookup [] (calculateHash [116, 101, 115, 116]) = some [116, 101, 115, 116]) ∧
    readBlob (writeBlob [] [116, 101, 115, 116]).2 (writeBlob [] [116, 101, 115, 116]).1
      = Except.ok [116, 101, 115, 116] ∧
    (writeBlob [] [116, 101, 115, 116]).1
      = "9f86d081884c7d659a2feaa0c55ad015a3bf4f1b2b0b822cd15d6c15b0f00a08" :=
  ⟨Or.inl rfl,
   (blob_write_read_spec [] [116, 101, 115, 116] (Or.inl rfl)).1,
   by decide⟩

/-! C10: Create events written for issues carrying a data object cannot be
read back by the replay engine. -/

/-- Field access on an event payload (none when the payload is not an
object). -/
def payloadLookup (j : Json) (k : String) : Option Json :=
  match j with
  | Json.obj fields => lookupField fields k
  | _ => none

theorem lookupField_objInsert (fs : List (String × Json)) (k k2 : String) (v : Json) :
    lookupField (objInsert fs k v) k2 = if k2 = k then some v else lookupField fs k2 := by
  induction fs with
  | nil =>
      simp only [objInsert, lookupField]
      by_cases h : k = k2
      · simp [h]
      · simp [h, Ne.symm h]
  | cons kv rest ih =>
      obtain ⟨k0, v0⟩ := kv
      simp only [objInsert]
      by_cases hlt : k < k0
      · simp only [if_pos hlt, lookupField]
        by_cases h : k = k2
        · simp [h]
        · simp [h, Ne.symm h]
      · simp only [if_neg hlt]
        by_cases heq : k = k0
        · simp only [if_pos heq, lookupField]
          by_cases h : k = k2
          · simp [h]
          · have hk0 : ¬ k0 = k2 := fun hc => h (heq.trans hc)
            simp [h, Ne.symm h, hk0]
        · simp only [if_neg heq, lookupField, ih]
          by_cases h0 : k0 = k2
          · have hne : ¬ k2 = k := fun hh => heq ((h0.trans hh).symm)
            simp [h0, hne]
          · simp [h0]

theorem parseCreatePayload_none_of_no_kind (fs : List (String × Json))
    (hkind : lookupField fs "kind" = none) :
    parseCreatePayload (Json.obj fs) = none := by
  simp only [parseCreatePayload]
  rw [hkind]
  cases hx : parseString (lookupField fs "title") <;> rfl

theorem applyEvents_none_of_mem (l : List Event) (e : Event)
    (he : ∀ c, applyEvent c e = none) (hmem : e ∈ l) :
    ∀ c, applyEvents c l = none := by
  induction l with
  | nil => cases hmem
  | cons x rest ih =>
      intro c
      rcases List.mem_cons.mp hmem with hx | hr
      · subst hx
        simp [applyEvents, he c]
      · cases hx2 : applyEvent c x with
        | none => simp [applyEvents, hx2]
        | some c2 =>
            simp only [applyEvents, hx2]
            exact ih hr c2

theorem applyAllEvents_none_of_mem (log : List Event) (e : Event)
    (he : ∀ c, applyEvent c e = none) (hmem : e ∈ log) :
    ∀ c, applyAllEvents log c = none := by
  intro c
  have hm2 : e ∈ sortEvents log := by
    unfold sortEvents
    exact (List.mem_insertionSort eventIdLe).mpr hmem
  have happ := applyEvents_none_of_mem (sortEvents log) e he hm2 (clearState c)
  simp [applyAllEvents, happ]

/-- C10: when an issue is created with a data payload that is a JSON object
without kind and priority keys, append_create_event only injects title and
status into the object, so the appended Create event's payload carries the
data plus title and status but no kind or priority; apply_event then fails
to deserialize the payload (kind is a required field), so any full replay
of a log containing that event returns an error instead of reproducing the
issue. -/
theorem create_with_data_payload_unparseable
    (issue : Issue) (fs : List (String × Json))
    (hdata : issue.data = some (Json.obj fs))
    (hkind : lookupField fs "kind" = none)
    (hprio : lookupField fs "priority" = none) :
    payloadLookup (createEventData issue) "title" = some (Json.str issue.title) ∧
    payloadLookup (createEventData issue) "status" = some (Json.str issue.status) ∧
    payloadLookup (createEventData issue) "kind" = none ∧
    payloadLookup (createEventData issue) "priority" = none ∧
    parseCreatePayload (createEventData issue) = none ∧
    ∀ (m : EventMeta) (log : List Event) (c : Cache),
      buildEvent m issue.id OpKind.create (createEventData issue) ∈ log →
      applyAllEvents log c = none := by
  have hced : createEventData issue =
      Json.obj (objInsert (objInsert fs "title" (Json.str issue.title))
                  "status" (Json.str issue.status)) := by
    simp [createEventData, hdata]
  have hkind2 : lookupField (objInsert (objInsert fs "title" (Json.str issue.title))
      "status" (Json.str issue.status)) "kind" = none := by
    rw [lookupField_objInsert, if_neg (by decide), lookupField_objInsert,
        if_neg (by decide), hkind]
  have hparse : parseCreatePayload (createEventData issue) = none := by
    rw [hced]
    exact parseCreatePayload_none_of_no_kind _ hkind2
  have happly : ∀ c, applyEvent c
      (buildEvent ⟨"", "", ""⟩ issue.id OpKind.create (createEventData issue)) = none := by
    intro c
    simp [applyEvent, buildEvent, hparse]
  refine ⟨?_, ?_, ?_, ?_, hparse, ?_⟩
  · rw [hced]
    show lookupField _ "title" = _
    rw [lookupField_objInsert, if_neg (by decide), lookupField_objInsert,
        if_pos rfl]
  · rw [hced]
    show lookupField _ "status" = _
    rw [lookupField_objInsert, if_pos rfl]
  · rw [hced]
    exact hkind2
  · rw [hced]
    show lookupField _ "priority" = _
    rw [lookupField_objInsert, if_neg (by decide), lookupField_objInsert,
        if_neg (by decide), hprio]
  · intro m log c hmem
    refine applyAllEvents_none_of_mem log _ ?_ hmem c
    intro c2
    simp [applyEvent, buildEvent, hparse]

def c10issue : Issue :=
  { id := "bd-001", title := "a", kind := "task", priority := 1, status := "open",
    created_at := "", description := none, design := none,
    acceptance_criteria := none, notes := none,
    data := some (Json.obj [("documents", Json.obj [])]) }

/-- C10 witness: a concrete issue whose data is an object holding only a
documents map; its Create event kills any full replay. -/
theorem c10_witness :
    (c10issue.data = some (Json.obj [("documents", Json.obj [])]) ∧
     lookupField [("documents", Json.obj [])] "kind" = none ∧
     lookupField [("documents", Json.obj [])] "priority" = none) ∧
    parseCreatePayload (createEventData c10issue) = none ∧
    applyAllEvents
      [buildEvent ⟨"01ARZ3NDEKTSV4RRFFQ69G5FAV", "2024-01-01T00:00:00.000Z", "u"⟩
        "bd-001" OpKind.create (createEventData c10issue)] {} = none :=
  ⟨⟨rfl, rfl, rfl⟩,
   (create_with_data_payload_unparseable c10issue [("documents", Json.obj [])]
      rfl rfl rfl).2.2.2.2.1,
   (create_with_data_payload_unparseable c10issue [("documents", Json.obj [])]
      rfl rfl rfl).2.2.2.2.2
     ⟨"01ARZ3NDEKTSV4RRFFQ69G5FAV", "2024-01-01T00:00:00.000Z", "u"⟩ _ {}
     (List.mem_cons_self _ _)⟩

/-! C2: permutation invariance of full replay. -/

theorem charListLe_refl (a : List Char) : charListLe a a = true := by
  induction a with
  | nil => rfl
  | cons x xs ih => simp [charListLe, lt_irrefl, ih]

theorem charListLe_total (a : List Char) :
    ∀ b, charListLe a b = true ∨ charListLe b a = true := by
  induction a with
  | nil => intro b; left; rfl
  | cons x xs ih =>
      intro b
      cases b with
      | nil => right; rfl
      | cons y ys =>
          by_cases hxy : x < y
          · left; simp [charListLe, hxy]
          · by_cases hyx : y < x
            · right; simp [charListLe, hyx]
            · have hxy2 : x = y := le_antisymm (not_lt.mp hyx) (not_lt.mp hxy)
              subst hxy2
              rcases ih ys with h | h
              · left; simp [charListLe, lt_irrefl, h]
              · right; simp [charListLe, lt_irrefl, h]

theorem charListLe_trans (a : List Char) :
    ∀ b c, charListLe a b = true → charListLe b c = true → charListLe a c = true := by
  induction a with
  | nil => intro b c _ _; rfl
  | cons x xs ih =>
      intro b c h1 h2
      cases b with
      | nil => simp [charListLe] at h1
      | cons y ys =>
          cases c with
          | nil => simp [charListLe] at h2
          | cons z zs =>
              simp only [charListLe] at h1 h2 ⊢
              by_cases hxy : x < y
              · by_cases hyz : y < z
                · simp [lt_trans hxy hyz]
                · by_cases hzy : z < y
                  · simp [hyz, hzy] at h2
                  · have hyz2 : y = z := le_antisymm (not_lt.mp hzy) (not_lt.mp hyz)
                    subst hyz2
                    simp [hxy]
              · by_cases hyx : y < x
                · simp [hxy, hyx] at h1
                · have hxy2 : x = y := le_antisymm (not_lt.mp hyx) (not_lt.mp hxy)
                  subst hxy2
                  simp only [if_neg hxy, if_neg hxy] at h1 ⊢
                  by_cases hyz : x < z
                  · simp [hyz]
                  · by_cases hzy : z < x
                    · simp [hyz, hzy] at h2
                    · have hyz2 : x = z := le_antisymm (not_lt.mp hzy) (not_lt.mp hyz)
                      subst hyz2
                      simp only [if_neg hyz] at h2 ⊢
                      exact ih ys zs h1 h2

theorem charListLe_antisymm (a : List Char) :
    ∀ b, charListLe a b = true → charListLe b a = true → a = b := by
  induction a with
  | nil =>
      intro b h1 h2
      cases b with
      | nil => rfl
      | cons y ys => simp [charListLe] at h2
  | cons x xs ih =>
      intro b h1 h2
      cases b with
      | nil => simp [charListLe] at h1
      | cons y ys =>
          simp only [charListLe] at h1 h2
          by_cases hxy : x < y
          · simp [hxy, asymm hxy] at h2
          · by_cases hyx : y < x
            · simp [hxy, hyx] at h1
            · have hxy2 : x = y := le_antisymm (not_lt.mp hyx) (not_lt.mp hxy)
              subst hxy2
              simp only [if_neg hxy] at h1 h2
              rw [ih ys h1 h2]

theorem strLe_antisymm (a b : String) (h1 : strLe a b = true) (h2 : strLe b a = true) :
    a = b := by
  have := charListLe_antisymm a.toList b.toList h1 h2
  exact String.ext this

instance : IsTotal Event eventIdLe :=
  ⟨fun a b => charListLe_total a.event_id.toList b.event_id.toList⟩

instance : IsTrans Event eventIdLe :=
  ⟨fun a b c h1 h2 =>
    charListLe_trans a.event_id.toList b.event_id.toList c.event_id.toList h1 h2⟩

/-- Strict version of the replay sort order: below the non-strict order and
with distinct ids.  Antisymmetric, which makes a sorted permutation class a
singleton. -/
def eventIdStrict (a b : Event) : Prop := eventIdLe a b ∧ a.event_id ≠ b.event_id

instance : IsAntisymm Event eventIdStrict :=
  ⟨fun a b h1 h2 => absurd (strLe_antisymm _ _ h1.1 h2.1) h1.2⟩

theorem sorted_eventIdStrict (l : List Event)
    (hs : l.Sorted eventIdLe) (hn : (l.map Event.event_id).Nodup) :
    l.Sorted eventIdStrict := by
  have hp : l.Pairwise (fun a b => a.event_id ≠ b.event_id) := List.pairwise_map.mp hn
  exact (List.Pairwise.and hs hp)

theorem sortEvents_eq_of_perm (l1 l2 : List Event) (hp : l1.Perm l2)
    (hn : (l1.map Event.event_id).Nodup) : sortEvents l1 = sortEvents l2 := by
  have hn2 : (l2.map Event.event_id).Nodup := (hp.map Event.event_id).nodup_iff.mp hn
  have hperm : (sortEvents l1).Perm (sortEvents l2) :=
    (List.perm_insertionSort eventIdLe l1).trans
      (hp.trans (List.perm_insertionSort eventIdLe l2).symm)
  have hn1s : ((sortEvents l1).map Event.event_id).Nodup :=
    ((List.perm_insertionSort eventIdLe l1).map Event.event_id).nodup_iff.mpr hn
  have hn2s : ((sortEvents l2).map Event.event_id).Nodup :=
    ((List.perm_insertionSort eventIdLe l2).map Event.event_id).nodup_iff.mpr hn2
  exact List.eq_of_perm_of_sorted hperm
    (sorted_eventIdStrict _ (List.sorted_insertionSort eventIdLe l1) hn1s)
    (sorted_eventIdStrict _ (List.sorted_insertionSort eventIdLe l2) hn2s)

/-- C2 (amended): full replay is invariant under permutation of the log
lines PROVIDED the events carry pairwise-distinct event_ids (the intended
regime: ids are ULIDs, unique with high probability, and the merge driver
deduplicates identical lines).  The entire resulting cache is equal:
issues, dependencies, labels, associations and the meta rows. -/
theorem full_replay_perm_invariant (l1 l2 : List Event) (c : Cache)
    (hp : l1.Perm l2) (hn : (l1.map Event.event_id).Nodup) :
    applyAllEvents l1 c = applyAllEvents l2 c := by
  have hsort := sortEvents_eq_of_perm l1 l2 hp hn
  have hlen : logByteLen l1 = logByteLen l2 := (hp.map eventLineLen).sum_eq
  simp only [applyAllEvents, logByteLen] at *
  rw [hsort, hlen]

def c2payload : Json :=
  Json.obj [("kind", Json.str "task"), ("priority", Json.num 1),
            ("status", Json.str "open"), ("title", Json.str "t")]

def c2e0 : Event :=
  { event_id := "01A", ts := "2024-01-01T00:00:00.000Z", op := OpKind.create,
    id := "bd-001", actor := "u", data := c2payload }

def c2e1 : Event :=
  { event_id := "01B", ts := "2024-01-01T00:00:01.000Z", op := OpKind.update,
    id := "bd-001", actor := "u", data := Json.obj [("title", Json.str "x")] }

def c2e2 : Event :=
  { event_id := "01B", ts := "2024-01-01T00:00:02.000Z", op := OpKind.update,
    id := "bd-001", actor := "u", data := Json.obj [("title", Json.str "y")] }

/-- C2 counterexample: with two DISTINCT update events sharing one
event_id, the stable sort keeps file order among the tied ids, so the two
line orders replay to different titles: the claim fails for logs with
duplicated event ids. -/
theorem c2_duplicate_ids_order_dependent :
    ([c2e0, c2e1, c2e2].Perm [c2e0, c2e2, c2e1]) ∧
    ((applyAllEvents [c2e0, c2e1, c2e2] {}).map
        (fun c => c.issues.map IssueRow.title)) = some ["y"] ∧
    ((applyAllEvents [c2e0, c2e2, c2e1] {}).map
        (fun c => c.issues.map IssueRow.title)) = some ["x"] ∧
    applyAllEvents [c2e0, c2e1, c2e2] {} ≠ applyAllEvents [c2e0, c2e2, c2e1] {} :=
  ⟨List.Perm.cons c2e0 (List.Perm.swap c2e2 c2e1 []),
   by decide, by decide, by decide⟩

/-- C2 witness: the amended invariance applied to a two-event log with
distinct ids and its transposition. -/
theorem c2_witness :
    ([c2e0, c2e1].Perm [c2e1, c2e0]) ∧
    (([c2e0, c2e1].map Event.event_id).Nodup) ∧
    applyAllEvents [c2e0, c2e1] {} = applyAllEvents [c2e1, c2e0] {} :=
  ⟨List.Perm.swap c2e1 c2e0 [], by decide,
   full_replay_perm_invariant [c2e0, c2e1] [c2e1, c2e0] {}
     (List.Perm.swap c2e1 c2e0 []) (by decide)⟩

/-! C6: delete with text-reference repair. -/

@[simp] theorem getIssueRow_setMeta (c : Cache) (k v id : String) :
    getIssueRow (setMeta c k v) id = getIssueRow c id := rfl

theorem getIssueRow_deleted (c : Cache) (X : String) :
    getIssueRow (updateTextReferences (deleteIssueRow c X) X) X = none := by
  simp only [getIssueRow, updateTextReferences, deleteIssueRow]
  rw [List.find?_eq_none]
  intro r hr
  simp only [List.mem_map, List.mem_filter] at hr
  obtain ⟨r0, ⟨_, hr0ne⟩, hr0eq⟩ := hr
  subst hr0eq
  simpa using hr0ne

/-- C6: delete_issue on an issue X present in the cache succeeds; in the
resulting state X's row is gone, every remaining row's title and serialized
data text have each literal occurrence of X replaced by [deleted:X], and
the log is the old log (all events retained) extended with one Update event
carrying status deleted. -/
theorem delete_issue_spec (m : EventMeta) (st : RepoState) (X : String) (row : IssueRow)
    (hrow : getIssueRow st.cache X = some row) :
    ∃ st2 res, deleteIssue m st X = Except.ok (st2, res) ∧
      getIssueRow st2.cache X = none ∧
      st2.cache.issues =
        (st.cache.issues.filter (fun r => r.id ≠ X)).map (fun r =>
          { r with title := rustReplace r.title X (deletedMarker X),
                   data := r.data.map (fun d => rustReplace d X (deletedMarker X)) }) ∧
      st2.log = st.log ++
        [buildEvent m X OpKind.update (updateJson { status := some "deleted" })] ∧
      (∀ e ∈ st.log, e ∈ st2.log) := by
  simp only [deleteIssue, hrow]
  refine ⟨_, _, rfl, ?_, ?_, rfl, ?_⟩
  · simpa using getIssueRow_deleted st.cache X
  · simp [updateTextReferences, deleteIssueRow]
  · intro e he
    exact List.mem_append.mpr (Or.inl he)

def c6meta : EventMeta :=
  { eventId := "01B0000000000000000000002", ts := "2024-01-02T00:00:00.000Z", actor := "u" }

def c6create : Event :=
  { event_id := "01A0000000000000000000001", ts := "2024-01-01T00:00:00.000Z",
    op := OpKind.create, id := "bd-001", actor := "u",
    data := Json.obj [("kind", Json.str "task"), ("priority", Json.num 1),
                      ("status", Json.str "open"),
                      ("title", Json.str "See bd-002 for context")] }

def c6st : RepoState :=
  { cache := { issues := [mkRow "bd-001" "See bd-002 for context", mkRow "bd-002" "b"] },
    log := [c6create] }

/-- C6 witness: the spec's own example.  Deleting bd-002 removes it from
the cache, rewrites bd-001's title to mention [deleted:bd-002], and leaves
the original Create event in the log next to the new Update. -/
theorem c6_witness :
    (getIssueRow c6st.cache "bd-002" = some (mkRow "bd-002" "b")) ∧
    ((deleteIssue c6meta c6st "bd-002").map
        (fun p => (getIssueRow p.1.cache "bd-001").map IssueRow.title)
      = Except.ok (some "See [deleted:bd-002] for context")) ∧
    ((deleteIssue c6meta c6st "bd-002").map (fun p => getIssueRow p.1.cache "bd-002")
      = Except.ok none) ∧
    ((deleteIssue c6meta c6st "bd-002").map (fun p => p.1.log.map Event.event_id)
      = Except.ok ["01A0000000000000000000001", "01B0000000000000000000002"]) ∧
    (∃ st2 res, deleteIssue c6meta c6st "bd-002" = Except.ok (st2, res) ∧
      getIssueRow st2.cache "bd-002" = none ∧
      st2.cache.issues =
        (c6st.cache.issues.filter (fun r => r.id ≠ "bd-002")).map (fun r =>
          { r with title := rustReplace r.title "bd-002" (deletedMarker "bd-002"),
                   data := r.data.map
                     (fun d => rustReplace d "bd-002" (deletedMarker "bd-002")) }) ∧
      st2.log = c6st.log ++
        [buildEvent c6meta "bd-002" OpKind.update (updateJson { status := some "deleted" })] ∧
      (∀ e ∈ c6st.log, e ∈ st2.log)) :=
  ⟨rfl, rfl, rfl, rfl,
   delete_issue_spec c6meta c6st "bd-002" (mkRow "bd-002" "b") rfl⟩

/-! C7: cascade deletion order. -/

def c7metas : Nat → EventMeta := fun k =>
  { eventId := "01E000000000000000000000" ++ toString k,
    ts := "2024-01-05T00:00:00.000Z", actor := "u" }

def c7st : RepoState :=
  { cache := { issues := [mkRow "bd-001" "root", mkRow "bd-002" "mid", mkRow "bd-003" "leaf"],
               dependencies := [("bd-002", "bd-001"), ("bd-003", "bd-002")] },
    log := [] }

/-- C7: with bd-002 depending on bd-001 and bd-003 depending on bd-002,
the transitive-dependent traversal of bd-001 returns the post-order list
[bd-003, bd-002] (leaves first), but delete_issue_cascade iterates that
list REVERSED, so the actual deletion order is bd-002 (on which bd-003
still depends), then bd-003, then the root - leaves LAST, contradicting
both the claim and the code's own leaves-first comment. -/
theorem cascade_deletes_leaves_last :
    getAllDependentsSorted c7st.cache "bd-001" = ["bd-003", "bd-002"] ∧
    (deleteIssueCascade c7metas c7st "bd-001").map (fun p => p.2)
      = Except.ok ["bd-002", "bd-003", "bd-001"] ∧
    (deleteIssueCascade c7metas c7st "bd-001").map (fun p => p.2)
      ≠ Except.ok ["bd-003", "bd-002", "bd-001"] :=
  ⟨by decide, by decide, by decide⟩

/-! C4: a failed log append aborts the mutation, but the issue serial has
already been committed by next_issue_id's separate transaction. -/

def c4meta : EventMeta :=
  { eventId := "01C0000000000000000000003", ts := "2024-01-03T00:00:00.000Z", actor := "u" }

def c4st : RepoState :=
  { cache := { meta := [("id_prefix", "bd"), ("last_issue_serial", "0")] }, log := [] }

/-- C4 counterexample: the claim says a failed append leaves
_meta.last_issue_serial unchanged; starting from serial 0, a create whose
append fails returns an error yet leaves the serial at 1, because
next_issue_id increments it in its own transaction committed before the
append is attempted. -/
theorem c4_serial_advances_on_failed_append :
    getMeta c4st.cache "last_issue_serial" = some "0" ∧
    (createIssueWithData c4meta false c4st "a" "task" 1 [] none
        "2024-01-03T00:00:00+00:00").result
      = Except.error (Err.io "append event to log") ∧
    getMeta (createIssueWithData c4meta false c4st "a" "task" 1 [] none
        "2024-01-03T00:00:00+00:00").state.cache "last_issue_serial" = some "1" :=
  ⟨rfl, rfl, by decide⟩

/-- C4 (amended): when the log append fails, create_issue_with_data aborts
without touching the issues, dependencies, labels or associations tables,
the log, or the last_event_id / last_processed_offset meta entries - but
_meta.last_issue_serial has already been incremented by next_issue_id's
own committed transaction, so the serial advances even on failure (the
burned serial is never reused, consistent with invariant 7).  Stated for
stored serials below u32::MAX, where the u32 increment does not wrap. -/
theorem create_append_failure_spec (m : EventMeta) (st : RepoState)
    (title kind : String) (priority : Nat) (depends_on : List String)
    (data : Option Json) (createdAt : String) (pref : String)
    (hpref : getMeta st.cache "id_prefix" = some pref)
    (hser : storedSerial st.cache < 4294967295) :
    (createIssueWithData m false st title kind priority depends_on data createdAt).result
      = Except.error (Err.io "append event to log") ∧
    (createIssueWithData m false st title kind priority depends_on data createdAt).state.log
      = st.log ∧
    (createIssueWithData m false st title kind priority depends_on data
        createdAt).state.cache.issues = st.cache.issues ∧
    (createIssueWithData m false st title kind priority depends_on data
        createdAt).state.cache.dependencies = st.cache.dependencies ∧
    (createIssueWithData m false st title kind priority depends_on data
        createdAt).state.cache.labels = st.cache.labels ∧
    (createIssueWithData m false st title kind priority depends_on data
        createdAt).state.cache.issue_labels = st.cache.issue_labels ∧
    getMeta (createIssueWithData m false st title kind priority depends_on data
        createdAt).state.cache "last_event_id" = getMeta st.cache "last_event_id" ∧
    getMeta (createIssueWithData m false st title kind priority depends_on data
        createdAt).state.cache "last_processed_offset"
      = getMeta st.cache "last_processed_offset" ∧
    getMeta (createIssueWithData m false st title kind priority depends_on data
        createdAt).state.cache "last_issue_serial"
      = some (toString (storedSerial st.cache + 1)) := by
  have hmod : (storedSerial st.cache + 1) % 4294967296 = storedSerial st.cache + 1 :=
    Nat.mod_eq_of_lt (by omega)
  have hnext : nextIssueId st.cache =
      Except.ok (setMeta st.cache "last_issue_serial" (toString (storedSerial st.cache + 1)),
                 pref ++ "-" ++ pad3 (storedSerial st.cache + 1)) := by
    simp [nextIssueId, hpref, hmod]
  simp only [createIssueWithData, hnext, Bool.false_eq_true, if_false]
  refine ⟨by trivial, by trivial, by trivial, by trivial, by trivial, by trivial, ?_, ?_, ?_⟩
  · exact getMeta_setMeta_ne _ _ _ _ (by decide)
  · exact getMeta_setMeta_ne _ _ _ _ (by decide)
  · exact getMeta_setMeta_same _ _ _

/-- C4 witness: the amended statement at the concrete initial repository
state. -/
theorem c4_witness :
    (getMeta c4st.cache "id_prefix" = some "bd" ∧
     storedSerial c4st.cache < 4294967295) ∧
    ((createIssueWithData c4meta false c4st "a" "task" 1 [] none "t").result
       = Except.error (Err.io "append event to log") ∧
     (createIssueWithData c4meta false c4st "a" "task" 1 [] none "t").state.log = c4st.log ∧
     (createIssueWithData c4meta false c4st "a" "task" 1 [] none "t").state.cache.issues
       = c4st.cache.issues ∧
     (createIssueWithData c4meta false c4st "a" "task" 1 [] none "t").state.cache.dependencies
       = c4st.cache.dependencies ∧
     (createIssueWithData c4meta false c4st "a" "task" 1 [] none "t").state.cache.labels
       = c4st.cache.labels ∧
     (createIssueWithData c4meta false c4st "a" "task" 1 [] none "t").state.cache.issue_labels
       = c4st.cache.issue_labels ∧
     getMeta (createIssueWithData c4meta false c4st "a" "task" 1 [] none "t").state.cache
         "last_event_id" = getMeta c4st.cache "last_event_id" ∧
     getMeta (createIssueWithData c4meta false c4st "a" "task" 1 [] none "t").state.cache
         "last_processed_offset" = getMeta c4st.cache "last_processed_offset" ∧
     getMeta (createIssueWithData c4meta false c4st "a" "task" 1 [] none "t").state.cache
         "last_issue_serial" = some (toString (storedSerial c4st.cache + 1))) :=
  ⟨⟨rfl, by decide⟩,
   create_append_failure_spec c4meta c4st "a" "task" 1 [] none "t" "bd" rfl (by decide)⟩

/-! C3: incremental and full replay do not agree. -/

def c3meta : EventMeta :=
  { eventId := "01D0000000000000000000004", ts := "2024-01-04T00:00:00.000Z", actor := "u" }

def c3init : RepoState :=
  { cache := { meta := [("id_prefix", "bd"), ("last_issue_serial", "0")] }, log := [] }

def c3run : Outcome Event :=
  createIssueWithData c3meta true c3init "a" "task" 1 [] none "2024-01-04T00:00:00+00:00"

/-- C3: after one successful create_issue (no data payload), the cache is
fully caught up, so sync(incremental) applies nothing and returns the cache
unchanged, with the issue's data column NULL; sync(full) instead rebuilds
the issue with its data column set to the whole Create payload JSON, and
clears id_prefix and last_issue_serial from _meta (clear_state deletes all
meta rows and replay rewrites only the two replay keys).  The two caches
are not equal, refuting bit-equality, and the cache no longer matches the
fold of the events (the fold stores the payload in the data column). -/
theorem incremental_full_divergence :
    (c3run.result.map (fun e => e.id) = Except.ok "bd-001") ∧
    ((getIssueRow c3run.state.cache "bd-001").map IssueRow.data = some none) ∧
    applyIncremental c3run.state.log [] c3run.state.cache = some c3run.state.cache ∧
    ((applyAllEvents c3run.state.log c3run.state.cache).map
        (fun c => (getIssueRow c "bd-001").map IssueRow.data))
      = some (some (some
          "\x7b\"kind\":\"task\",\"priority\":1,\"status\":\"open\",\"title\":\"a\"\x7d")) ∧
    ((applyAllEvents c3run.state.log c3run.state.cache).map
        (fun c => getMeta c "id_prefix")) = some none ∧
    applyAllEvents c3run.state.log c3run.state.cache ≠ some c3run.state.cache :=
  ⟨rfl, by decide, rfl, by decide, by decide, by decide⟩

end Beads
